import Mathlib

/-!
Shallow embedding of the elote ETL core (src/elote/__init__.py and
src/elote/coerce.py): calendar dates and ISO-8601 parsing, the
loaded-range filter, the boolean coercer, numeric out-type coercion,
source-file dispatch, the frame shaping step, and the dataset loader.
Python exceptions are modelled with `Except String`; pandas missing
values (None / NaN / pd.NA) with a dedicated `na` constructor.
-/

namespace Elote

/-- The characters Python's `str.strip()` removes: ASCII space, tab,
newline, carriage return, vertical tab and form feed. -/
def isPyWhitespace (c : Char) : Bool :=
  c == ' ' || c == '\t' || c == '\n' || c == '\r' || c == '\x0b' || c == '\x0c'

/-- Python `str.strip()`: drop leading and trailing whitespace. -/
def pyStrip (s : String) : String :=
  String.mk
    (((s.toList.dropWhile isPyWhitespace).reverse.dropWhile
      isPyWhitespace).reverse)

/-- Python `str.lower()` on the ASCII strings this pipeline handles. -/
def pyLower (s : String) : String :=
  String.mk (s.toList.map Char.toLower)

/-- Split a character list on a separator character; like Python
`str.split(sep)`, adjacent separators produce empty groups. -/
def splitOnChar (sep : Char) : List Char → List (List Char)
  | [] => [[]]
  | c :: cs =>
    let r := splitOnChar sep cs
    if c == sep then [] :: r
    else
      match r with
      | [] => [[c]]
      | g :: gs => (c :: g) :: gs

/-- Value of an all-digit character list, most significant first. -/
def digitsToNat (cs : List Char) : Nat :=
  cs.foldl (fun n c => n * 10 + (c.toNat - 48)) 0

/-- Whether every character is an ASCII decimal digit. -/
def allDigits (cs : List Char) : Bool :=
  cs.all (fun c => decide ('0' ≤ c) && decide (c ≤ '9'))

/-- A calendar date, as `datetime.date`. -/
structure Date where
  year : Nat
  month : Nat
  day : Nat
deriving DecidableEq

/-- Strict ordering on dates (`datetime.date.__lt__`): lexicographic on
(year, month, day). -/
def dateLtB (a b : Date) : Bool :=
  decide (a.year < b.year) ||
    (decide (a.year = b.year) &&
      (decide (a.month < b.month) ||
        (decide (a.month = b.month) && decide (a.day < b.day))))

/-- Gregorian leap-year rule, as used by `datetime`. -/
def isLeapYear (y : Nat) : Bool :=
  y % 4 == 0 && (y % 100 != 0 || y % 400 == 0)

/-- Days in a month of the proleptic Gregorian calendar. -/
def daysInMonth (y m : Nat) : Nat :=
  if m == 2 then (if isLeapYear y then 29 else 28)
  else if m == 4 || m == 6 || m == 9 || m == 11 then 30
  else 31

/-- `datetime.fromisoformat(s).date()` on a `YYYY-MM-DD` string: three
dash-separated all-digit fields of widths 4, 2, 2, validated against the
calendar; any other shape raises `ValueError` (here: `none`). -/
def parseIsoDate (s : String) : Option Date :=
  match splitOnChar '-' s.toList with
  | [ys, ms, ds] =>
    if (ys.length == 4 && ms.length == 2 && ds.length == 2) &&
        (allDigits ys && allDigits ms && allDigits ds) then
      let y := digitsToNat ys
      let m := digitsToNat ms
      let d := digitsToNat ds
      if 1 ≤ m && m ≤ 12 && 1 ≤ d && d ≤ daysInMonth y m then
        some ⟨y, m, d⟩
      else none
    else none
  | _ => none

/-- A value delivered by the database backend for a date bound:
PostgreSQL returns `datetime.date` objects, SQLite ISO-8601 strings,
and an empty table yields SQL `NULL` (Python `None`). -/
inductive DbVal where
  | date (d : Date)
  | text (s : String)
  | null
deriving DecidableEq

/-- Outcome of the `SELECT min(start_date), max(end_date)` query:
either a row of two values, or the backend's table-missing error
(`ProgrammingError` on PostgreSQL, `OperationalError` on SQLite). -/
inductive QueryResult where
  | ok (min_start max_end : DbVal)
  | tableMissing
deriving DecidableEq

/-- One row of `conf/datasets.csv` as read by `transform_dataset`. -/
structure ManifestRow where
  year : Nat
  start_date : Date
  end_date : Date
  field_reference_file : String
  source_file : String
  source_type : Option String
deriving DecidableEq

/-- The post-query normalisation in `_filter_datasets_on_loaded`:
`isinstance(v, str)` values are parsed with `datetime.fromisoformat`
(raising `ValueError` on a malformed string), date objects pass
through, and `None` stays `None`. -/
def normalizeBound : DbVal → Except String (Option Date)
  | .date d => .ok (some d)
  | .text s =>
    match parseIsoDate s with
    | some d => .ok (some d)
    | none => .error ("ValueError: Invalid isoformat string: " ++ s)
  | .null => .ok none

/-- The per-row boolean mask
`(start_date > max_end) | (min_start > end_date)`. With date bounds,
pandas compares the `datetime.date` cells elementwise; with a `None`
bound (empty destination table), pandas' `comparison_op` special-cases
the null scalar and yields an all-False mask for every ordering
comparison, so no row is kept and nothing raises. -/
def rowKeep (min_start max_end : Option Date) (r : ManifestRow) : Bool :=
  (match max_end with
    | some mx => dateLtB mx r.start_date
    | none => false) ||
  (match min_start with
    | some mn => dateLtB r.end_date mn
    | none => false)

/-- `_filter_datasets_on_loaded` (src/elote/__init__.py, lines 51-84),
with the min/max query's outcome passed in explicitly: table-missing
errors return the whole manifest, otherwise the bounds are normalised
and the manifest is masked down to rows strictly outside the
coverage. -/
def _filter_datasets_on_loaded (datasets : List ManifestRow)
    (q : QueryResult) : Except String (List ManifestRow) :=
  match q with
  | .tableMissing => .ok datasets
  | .ok mnv mxv =>
    match normalizeBound mnv with
    | .error e => .error e
    | .ok mn =>
      match normalizeBound mxv with
      | .error e => .error e
      | .ok mx => .ok (datasets.filter (rowKeep mn mx))

/-- A pandas cell value as handled by the coercion code: missing
(None / NaN / pd.NA), a Python int, a finite float (floats reachable in
this pipeline are decimal literals, represented exactly as rationals),
an infinity, a bool, a string, or a `datetime.date`. -/
inductive PyVal where
  | na
  | int (n : Int)
  | float (q : Rat)
  | inf (neg : Bool)
  | bool (b : Bool)
  | str (s : String)
  | date (d : Date)
deriving DecidableEq

/-- The key normalisation in `_bool_value`:
`val.strip().lower() if isinstance(val, str) else val`. -/
def normKey : PyVal → PyVal
  | .str s => .str (pyLower (pyStrip s))
  | v => v

/-- Python `key in _BOOL_TRUE` for `frozenset({1, "1", "yes", "true"})`:
set membership uses `==`, under which `1 == 1.0 == True`, so numeric
values match by numeric equality and strings by string equality. -/
def memBoolTrue : PyVal → Bool
  | .int n => n == 1
  | .float q => q == 1
  | .bool b => b
  | .str s => s == "1" || s == "yes" || s == "true"
  | _ => false

/-- Python `key in _BOOL_FALSE` for `frozenset({0, "0", "no", "false"})`. -/
def memBoolFalse : PyVal → Bool
  | .int n => n == 0
  | .float q => q == 0
  | .bool b => !b
  | .str s => s == "0" || s == "no" || s == "false"
  | _ => false

/-- Python `repr` of a cell value, as interpolated by `{val!r}`. -/
def pyRepr : PyVal → String
  | .na => "<NA>"
  | .int n => toString n
  | .float q => toString q
  | .inf neg => if neg then "-inf" else "inf"
  | .bool b => if b then "True" else "False"
  | .str s => "'" ++ s ++ "'"
  | .date d =>
    "datetime.date(" ++ toString d.year ++ ", " ++ toString d.month ++
      ", " ++ toString d.day ++ ")"

/-- The error message raised by `_bool_value` on an unrecognised value. -/
def boolErrMsg (val : PyVal) : String :=
  "Cannot convert " ++ pyRepr val ++ " to bool. " ++
    "Expected one of: 1, 0, 'yes', 'no', 'true', 'false'."

/-- `_bool_value` (src/elote/coerce.py, lines 10-22): missing input maps
to pd.NA; otherwise the (string-normalised) key is looked up in the
accepted true/false sets, and anything else raises `ValueError`. -/
def _bool_value (val : PyVal) : Except String (Option Bool) :=
  if val = .na then .ok none
  else
    let key := normKey val
    if memBoolTrue key then .ok (some true)
    else if memBoolFalse key then .ok (some false)
    else .error (boolErrMsg val)

/-- `coerce_bool_series` (src/elote/coerce.py, lines 25-30):
`series.map(_bool_value)` applies `_bool_value` cell by cell in order,
aborting the whole coercion at the first raised error; the result is a
nullable-boolean column. -/
def coerce_bool_series : List PyVal → Except String (List (Option Bool))
  | [] => .ok []
  | x :: xs =>
    match _bool_value x with
    | .error e => .error e
    | .ok b =>
      match coerce_bool_series xs with
      | .error e => .error e
      | .ok bs => .ok (b :: bs)

/-- Resolved pandas dtype, the codomain of `_TYPE_MAP`: the nullable
integer dtype string `"Int64"`, the `float` class, the `str` class, or
an unresolved dtype string passed through unchanged. -/
inductive PdType where
  | int64
  | float
  | str
  | raw (t : String)
deriving DecidableEq

/-- `_TYPE_MAP.get(t, t)` (src/elote/__init__.py, lines 35-39):
`"int"` resolves to the nullable `"Int64"`, `"float"` and `"str"` to
the respective classes, anything else passes through. -/
def resolveType (t : String) : PdType :=
  if t = "int" then .int64
  else if t = "float" then .float
  else if t = "str" then .str
  else .raw t

/-- `_resolve_types` (src/elote/__init__.py, lines 42-43). -/
def _resolve_types (type_dict : List (String × String)) :
    List (String × PdType) :=
  type_dict.map (fun p => (p.1, resolveType p.2))

/-- Split a character list at the first character satisfying `p`,
returning the part before it and, if found, the part after it. -/
def splitFirst (p : Char → Bool) : List Char → List Char × Option (List Char)
  | [] => ([], none)
  | c :: cs =>
    if p c then ([], some cs)
    else
      let r := splitFirst p cs
      (c :: r.1, r.2)

/-- Mantissa of a numeric literal: an optional decimal point with
all-digit (possibly empty, not both empty) parts around it. Returns the
rational value and whether a point was present. -/
def parseMantissa (cs : List Char) : Option (Rat × Bool) :=
  match splitFirst (fun c => c == '.') cs with
  | (intp, none) =>
    if allDigits intp && !intp.isEmpty then some ((digitsToNat intp : Rat), false)
    else none
  | (intp, some fracp) =>
    if allDigits intp && allDigits fracp && !(intp.isEmpty && fracp.isEmpty) then
      some (((digitsToNat intp : Rat) +
        (digitsToNat fracp : Rat) / ((10 : Rat) ^ fracp.length)), true)
    else none

/-- Exponent field of a numeric literal: optional sign, nonempty digits. -/
def parseExponent (cs : List Char) : Option Int :=
  let signAndBody : Bool × List Char :=
    match cs with
    | '-' :: rest => (true, rest)
    | '+' :: rest => (false, rest)
    | rest => (false, rest)
  if allDigits signAndBody.2 && !signAndBody.2.isEmpty then
    some (if signAndBody.1 then -(digitsToNat signAndBody.2 : Int)
          else (digitsToNat signAndBody.2 : Int))
  else none

/-- Parsing of one string cell by `pd.to_numeric`: strip whitespace,
optional sign, then either `inf`/`infinity`/`nan` (case-insensitive) or
a decimal literal with optional fraction and exponent. Integer-shaped
literals produce ints, pointed or exponent forms floats; an unparseable
string is `none` (a `ValueError` inside the library). -/
def parseNumeric (s : String) : Option PyVal :=
  let t := pyStrip s
  let signAndBody : Bool × List Char :=
    match t.toList with
    | '-' :: rest => (true, rest)
    | '+' :: rest => (false, rest)
    | cs => (false, cs)
  let neg := signAndBody.1
  let body := signAndBody.2
  let lower := pyLower (String.mk body)
  if lower = "inf" || lower = "infinity" then some (.inf neg)
  else if lower = "nan" then some .na
  else
    match splitFirst (fun c => c == 'e' || c == 'E') body with
    | (mant, none) =>
      match splitFirst (fun c => c == '.') mant with
      | (intp, none) =>
        if allDigits intp && !intp.isEmpty then
          some (.int (if neg then -(digitsToNat intp : Int)
                      else (digitsToNat intp : Int)))
        else none
      | (intp, some fracp) =>
        if allDigits intp && allDigits fracp &&
            !(intp.isEmpty && fracp.isEmpty) then
          let q : Rat := (digitsToNat intp : Rat) +
            (digitsToNat fracp : Rat) / ((10 : Rat) ^ fracp.length)
          some (.float (if neg then -q else q))
        else none
    | (mant, some expo) =>
      match parseMantissa mant, parseExponent expo with
      | some (q, _), some e =>
        let v := (if neg then -q else q) * (10 : Rat) ^ e
        some (.float v)
      | _, _ => none

/-- One cell under `pd.to_numeric(column, errors='coerce')`
(src/elote/__init__.py, line 158): numeric values pass through, bools
become ints, strings are parsed, and anything unconvertible — including
an unparseable or blank string — becomes the missing marker NaN. -/
def to_numeric_coerce (v : PyVal) : PyVal :=
  match v with
  | .na => .na
  | .int n => .int n
  | .float q => .float q
  | .inf b => .inf b
  | .bool b => .int (if b then 1 else 0)
  | .str s =>
    match parseNumeric s with
    | some (.int n) => .int n
    | some (.float q) => .float q
    | some (.inf b) => .inf b
    | _ => .na
  | .date _ => .na

/-- Python `str()` of a cell, for `astype(str)`. -/
def pyStr : PyVal → String
  | .na => "<NA>"
  | .int n => toString n
  | .float q => toString q
  | .inf neg => if neg then "-inf" else "inf"
  | .bool b => if b then "True" else "False"
  | .str s => s
  | .date d =>
    toString d.year ++ "-" ++ toString d.month ++ "-" ++ toString d.day

/-- One cell under `astype("Int64")`: missing stays missing, integral
values cast, a non-integral or non-finite float raises, a leftover
string or date raises. -/
def astypeInt64Cell (v : PyVal) : Except String PyVal :=
  match v with
  | .na => .ok .na
  | .int n => .ok (.int n)
  | .float q =>
    if q.den = 1 then .ok (.int q.num)
    else .error "TypeError: cannot safely cast non-equivalent float64 to int64"
  | .inf _ => .error "TypeError: cannot convert non-finite values to integer"
  | .bool b => .ok (.int (if b then 1 else 0))
  | .str s => .error ("ValueError: invalid literal for Int64: " ++ pyRepr (.str s))
  | .date _ => .error "TypeError: cannot cast date to int64"

/-- One cell under `astype(float)`: numeric and missing values convert,
a string must parse as a float literal, a date raises. -/
def astypeFloatCell (v : PyVal) : Except String PyVal :=
  match v with
  | .na => .ok .na
  | .int n => .ok (.float n)
  | .float q => .ok (.float q)
  | .inf b => .ok (.inf b)
  | .bool b => .ok (.float (if b then 1 else 0))
  | .str s =>
    match parseNumeric s with
    | some (.int n) => .ok (.float n)
    | some (.float q) => .ok (.float q)
    | some (.inf b) => .ok (.inf b)
    | some _ => .ok .na
    | none => .error ("ValueError: could not convert string to float: " ++ pyRepr (.str s))
  | .date _ => .error "TypeError: float() argument must not be a date"

/-- One cell under `astype(dtype)` for a resolved dtype. -/
def astypeCell (t : PdType) (v : PyVal) : Except String PyVal :=
  match t with
  | .int64 => astypeInt64Cell v
  | .float => astypeFloatCell v
  | .str => .ok (.str (pyStr v))
  | .raw name => .error ("TypeError: data type " ++ pyRepr (.str name) ++ " not understood")

/-- Whether an operation completed without raising. -/
def exceptIsOk {ε α : Type} : Except ε α → Bool
  | .ok _ => true
  | .error _ => false

/-- Elementwise mapping over a column in an exception monad: cells are
processed in order and the first raised error aborts the operation. -/
def exceptMapM {α β : Type} (f : α → Except String β) :
    List α → Except String (List β)
  | [] => .ok []
  | a :: as =>
    match f a with
    | .error e => .error e
    | .ok b =>
      match exceptMapM f as with
      | .error e => .error e
      | .ok bs => .ok (b :: bs)

/-- The out-type application for one column (src/elote/__init__.py,
lines 155-159): when the resolved dtype is `"Int64"` or `float` the
column first passes through `pd.to_numeric(..., errors='coerce')`, then
`astype` casts every cell. -/
def applyOutTypeColumn (t : PdType) (col : List PyVal) :
    Except String (List PyVal) :=
  let pre := if t = .int64 || t = .float then col.map to_numeric_coerce else col
  exceptMapM (astypeCell t) pre

/-- Whether a cell survives the numeric `"Int64"` pipeline without a
cast error: everything except a non-integral finite float, an
infinity, and a string parsing to one of those. An unparseable or
blank string is safe — it coerces to the missing marker. -/
def int64CastSafe (v : PyVal) : Bool :=
  match v with
  | .float q => q.den == 1
  | .inf _ => false
  | .str s =>
    match parseNumeric s with
    | some (.float q) => q.den == 1
    | some (.inf _) => false
    | _ => true
  | _ => true

/-- Value of one already-`to_numeric`-coerced cell after
`astype("Int64")`, on cells where the cast does not raise. -/
def int64Post (w : PyVal) : PyVal :=
  match w with
  | .na => .na
  | .int n => .int n
  | .float q => if q.den = 1 then .int q.num else .na
  | _ => .na

/-- Value of one already-`to_numeric`-coerced cell after
`astype(float)`. -/
def floatPost (w : PyVal) : PyVal :=
  match w with
  | .na => .na
  | .int n => .float n
  | .float q => .float q
  | .inf b => .inf b
  | w => w

/-- Final path component, as `pathlib`'s `name`. -/
def pathName (p : String) : String :=
  String.mk ((splitOnChar '/' p.toList).getLastD [])

/-- `pathlib.PurePath.suffix`: with `i = name.rfind('.')`, the slice
`name[i:]` when `0 < i < len(name) - 1`, else the empty string. -/
def pathSuffix (p : String) : String :=
  let cs := (pathName p).toList
  match ((List.range cs.length).filter (fun i => cs.getD i ' ' == '.')).getLast? with
  | some i => if 0 < i && i < cs.length - 1 then String.mk (cs.drop i) else ""
  | none => ""

/-- The read performed for a file-sourced manifest entry: either the
geometry-aware reader `gpd.read_file`, or `pd.read_csv` with the
resolved `in_types` passed as the `dtype` argument. -/
inductive SourceRead where
  | geoFile (path : String)
  | csvFile (path : String) (dtype : List (String × PdType))
deriving DecidableEq

/-- The file-extension dispatch in `transform_dataset`
(src/elote/__init__.py, lines 128-141): geospatial suffixes go to the
geometry-aware reader, `.csv` to the delimited-text reader with
`in_types` as import-time dtypes, and any other suffix raises
`ValueError` naming the suffix. -/
def dispatchFileRead (vault source_file : String)
    (in_types : List (String × String)) : Except String SourceRead :=
  let suffix := pathSuffix source_file
  let resolved := _resolve_types in_types
  if suffix = ".geojson" || suffix = ".shp" || suffix = ".gpkg" then
    .ok (.geoFile (vault ++ "/" ++ source_file))
  else if suffix = ".csv" then
    .ok (.csvFile (vault ++ "/" ++ source_file) resolved)
  else
    .error ("Unsupported file type: " ++ suffix)

/-- A column-oriented data frame: column names in order, each with its
list of cells (one per row). -/
abbrev TFrame := List (String × List PyVal)

/-- First value bound to a key in an association list; models Python
dict lookup and pandas column lookup by name. -/
def lookupCol {β : Type} (name : String) : List (String × β) → Option β
  | [] => none
  | c :: cs => if c.1 = name then some c.2 else lookupCol name cs

/-- `DataFrame.rename(columns=renames)` on one column name: renamed
when present in the mapping, unchanged otherwise. -/
def applyRename (renames : List (String × String)) (c : String) : String :=
  match lookupCol c renames with
  | some c2 => c2
  | none => c

/-- `DataFrame.rename(columns=renames)`: every column keeps its cells,
names are mapped through `renames`. -/
def renameCols (renames : List (String × String)) (f : TFrame) : TFrame :=
  f.map (fun col => (applyRename renames col.1, col.2))

/-- Row count of a frame (length of its first column). -/
def nrows (f : TFrame) : Nat :=
  match f with
  | [] => 0
  | c :: _ => c.2.length

/-- Column assignment: an existing column is overwritten in place, a
new one is appended on the right, as pandas does. -/
def setCol (f : TFrame) (name : String) (cells : List PyVal) : TFrame :=
  if (lookupCol name f).isSome then
    f.map (fun c => if c.1 = name then (name, cells) else c)
  else
    f ++ [(name, cells)]

/-- `.assign(start_date=..., end_date=...)` with this manifest entry's
scalar dates: each scalar is broadcast to every row. -/
def assignDates (sd ed : Date) (f : TFrame) : TFrame :=
  let n := nrows f
  setCol (setCol f "start_date" (List.replicate n (.date sd)))
    "end_date" (List.replicate n (.date ed))

/-- `[c for c in ("start_date", "end_date") if c not in out_cols]`
(src/elote/__init__.py, line 144). -/
def dateColsFor (out_cols : List String) : List String :=
  ["start_date", "end_date"].filter (fun c => decide (c ∉ out_cols))

/-- Column projection `frame[cols]`: selects the named columns in the
given order, raising `KeyError` on a missing name. -/
def project (cols : List String) (f : TFrame) : Except String TFrame :=
  match cols with
  | [] => .ok []
  | c :: cs =>
    match lookupCol c f with
    | some cells =>
      match project cs f with
      | .ok g => .ok ((c, cells) :: g)
      | .error e => .error e
    | none => .error ("KeyError: " ++ c)

/-- The shaping step of `transform_dataset` (src/elote/__init__.py,
lines 143-149): rename, stamp both date columns, and project to
`out_cols` plus whichever date columns it omits. -/
def shapeStep (renames : List (String × String)) (out_cols : List String)
    (sd ed : Date) (frame : TFrame) : Except String TFrame :=
  project (out_cols ++ dateColsFor out_cols)
    (assignDates sd ed (renameCols renames frame))

/-- A geometry cell, carrying its WKB hex encoding (`shapely`'s
`wkb_hex` property). -/
structure Geometry where
  wkb_hex : String
deriving DecidableEq

/-- A frame arriving at the loader: opaque non-geometry payload, plus a
geometry column exactly when the frame is a GeoDataFrame. -/
structure Frame where
  payload : Nat
  geometry : Option (List (Option Geometry))
deriving DecidableEq

/-- The connection object handed to a write call: the raw engine, or a
connection scoped by `with db_engine.connect()`. -/
inductive Handle where
  | rawEngine
  | scopedConnection
deriving DecidableEq

/-- One database write issued by the loader: the spatial append path
`to_postgis` (geometry preserved), or the plain append path `to_sql`
(geometry column, when present, already flattened to hex strings). -/
inductive WriteCall where
  | to_postgis (tableName : String) (payload : Nat)
      (geometry : List (Option Geometry)) (handle : Handle)
      (schema : Option String)
  | to_sql (tableName : String) (payload : Nat)
      (geometry : Option (List (Option String))) (handle : Handle)
      (schema : Option String)
deriving DecidableEq

/-- `load_dataset` (src/elote/__init__.py, lines 169-197): a
GeoDataFrame on PostgreSQL goes to `to_postgis` with the raw engine
and the given schema; a GeoDataFrame elsewhere is flattened — each
geometry replaced by its WKB hex, `None` kept as `None` — and written
with `to_sql`; a plain frame goes to `to_sql`; the schema is dropped
on backends without schema support. -/
def load_dataset (frames : List Frame) (table_name : String)
    (isPostgres : Bool) (schema : String) : List WriteCall :=
  let effective_schema := if isPostgres then some schema else none
  frames.map fun frame =>
    match frame.geometry, isPostgres with
    | some g, true =>
      .to_postgis table_name frame.payload g .rawEngine (some schema)
    | some g, false =>
      .to_sql table_name frame.payload
        (some (g.map (Option.map Geometry.wkb_hex))) .scopedConnection
        effective_schema
    | none, _ =>
      .to_sql table_name frame.payload none .scopedConnection
        effective_schema

/-! ## General lemmas about the embedding's plumbing -/

/-- `exceptMapM` over cells on which `f` never raises is a plain map. -/
theorem exceptMapM_ok_of_forall {α β : Type} (f : α → Except String β)
    (g : α → β) (l : List α) (h : ∀ x ∈ l, f x = .ok (g x)) :
    exceptMapM f l = .ok (l.map g) := by
  induction l with
  | nil => rfl
  | cons a as ih =>
    simp [exceptMapM, h a (by simp), ih (fun x hx => h x (by simp [hx]))]

/-! ## Claim theorems: loaded-range filter -/

/-- C6: for every manifest, when the destination table does not exist —
the min/max query raises the backend's table-missing error — the
loaded-range filter returns the full manifest unchanged; the error is
recovered locally, not surfaced (the result is a success value). -/
theorem loaded_range_filter_table_missing (datasets : List ManifestRow) :
    _filter_datasets_on_loaded datasets .tableMissing = .ok datasets := rfl

/-- C1: for bounds successfully read from the destination table, the
loaded-range filter keeps exactly the manifest rows with
`start_date > max_end` or `end_date < min_start`, in their original
order (an ordinary order-preserving filter), and delivering the bounds
as ISO-8601 strings denoting the same dates gives the same result as
delivering them as date objects. -/
theorem loaded_range_filter_selection (datasets : List ManifestRow)
    (mn mx : Date) (smn smx : String)
    (hmn : parseIsoDate smn = some mn) (hmx : parseIsoDate smx = some mx) :
    _filter_datasets_on_loaded datasets (.ok (.date mn) (.date mx)) =
      .ok (datasets.filter fun r =>
        dateLtB mx r.start_date || dateLtB r.end_date mn) ∧
    _filter_datasets_on_loaded datasets (.ok (.text smn) (.text smx)) =
      _filter_datasets_on_loaded datasets (.ok (.date mn) (.date mx)) := by
  refine ⟨rfl, ?_⟩
  show (match normalizeBound (.text smn) with
    | Except.error e => Except.error e
    | Except.ok mn' =>
      match normalizeBound (.text smx) with
      | Except.error e => Except.error e
      | Except.ok mx' =>
        Except.ok (datasets.filter (rowKeep mn' mx'))) = _
  simp [normalizeBound, hmn, hmx]
  rfl

/-- C9 counterexample: on a one-row manifest with an existing but empty
destination table (the min/max query succeeds with SQL NULL in both
bounds), the filter neither raises nor returns the full manifest — it
succeeds with an empty result, refuting the claim that this input
raises an error. -/
theorem loaded_range_filter_null_bounds_counterexample :
    _filter_datasets_on_loaded
        [⟨2020, ⟨2020, 1, 1⟩, ⟨2020, 12, 31⟩, "fields.json", "a.csv", none⟩]
        (.ok .null .null) =
      .ok [] := rfl

/-- C9 (amended): when the destination table exists but is empty, the
min/max query succeeds with SQL NULL in both bounds; pandas' ordering
comparisons against the `None` scalars yield all-False masks, so the
filter drops every manifest row and returns an empty success — neither
an error nor the full manifest. Empty coverage is recognised only
through the table-missing path. -/
theorem loaded_range_filter_null_bounds_drops_all
    (datasets : List ManifestRow) :
    _filter_datasets_on_loaded datasets (.ok .null .null) = .ok [] := by
  show Except.ok (datasets.filter (rowKeep none none)) = _
  have h : datasets.filter (rowKeep none none) = [] := by
    induction datasets with
    | nil => rfl
    | cons r rest ih => simp [List.filter_cons, rowKeep, ih]
  rw [h]

/-- Concrete instance of the loaded-range selection rule: coverage
2020-01-01 .. 2020-12-31, one row strictly after it, one inside it,
delivered both as date objects and as ISO-8601 text. -/
theorem loaded_range_filter_selection_witness :
    _filter_datasets_on_loaded
        [⟨2021, ⟨2021, 2, 1⟩, ⟨2021, 12, 31⟩, "fields.json", "b.csv", none⟩,
         ⟨2020, ⟨2020, 3, 1⟩, ⟨2020, 6, 30⟩, "fields.json", "a.csv", none⟩]
        (.ok (.date ⟨2020, 1, 1⟩) (.date ⟨2020, 12, 31⟩)) =
      .ok (([⟨2021, ⟨2021, 2, 1⟩, ⟨2021, 12, 31⟩, "fields.json", "b.csv", none⟩,
         ⟨2020, ⟨2020, 3, 1⟩, ⟨2020, 6, 30⟩, "fields.json", "a.csv", none⟩] :
          List ManifestRow).filter fun r =>
        dateLtB ⟨2020, 12, 31⟩ r.start_date || dateLtB r.end_date ⟨2020, 1, 1⟩) ∧
    _filter_datasets_on_loaded
        [⟨2021, ⟨2021, 2, 1⟩, ⟨2021, 12, 31⟩, "fields.json", "b.csv", none⟩,
         ⟨2020, ⟨2020, 3, 1⟩, ⟨2020, 6, 30⟩, "fields.json", "a.csv", none⟩]
        (.ok (.text "2020-01-01") (.text "2020-12-31")) =
      _filter_datasets_on_loaded
        [⟨2021, ⟨2021, 2, 1⟩, ⟨2021, 12, 31⟩, "fields.json", "b.csv", none⟩,
         ⟨2020, ⟨2020, 3, 1⟩, ⟨2020, 6, 30⟩, "fields.json", "a.csv", none⟩]
        (.ok (.date ⟨2020, 1, 1⟩) (.date ⟨2020, 12, 31⟩)) :=
  loaded_range_filter_selection _ ⟨2020, 1, 1⟩ ⟨2020, 12, 31⟩
    "2020-01-01" "2020-12-31" (by decide) (by decide)

/-! ## Claim theorems: boolean coercer -/

/-- C3: the boolean coercer maps missing input to the missing marker,
trims and lower-cases string input before matching, and then maps any
value of the accepted true set `{1, "1", "yes", "true"}` to true and of
the accepted false set `{0, "0", "no", "false"}` to false. -/
theorem bool_coercer_normalization :
    _bool_value .na = .ok none ∧
    (∀ s : String,
      pyLower (pyStrip s) = "1" ∨ pyLower (pyStrip s) = "yes" ∨
        pyLower (pyStrip s) = "true" →
      _bool_value (.str s) = .ok (some true)) ∧
    (∀ s : String,
      pyLower (pyStrip s) = "0" ∨ pyLower (pyStrip s) = "no" ∨
        pyLower (pyStrip s) = "false" →
      _bool_value (.str s) = .ok (some false)) ∧
    _bool_value (.int 1) = .ok (some true) ∧
    _bool_value (.int 0) = .ok (some false) := by
  refine ⟨rfl, ?_, ?_, rfl, rfl⟩ <;>
    · intro s hs
      rcases hs with h | h | h <;>
        simp [_bool_value, normKey, memBoolTrue, memBoolFalse, h]

/-- Concrete instances of the boolean coercer's normalisation: a padded
upper-case yes and a padded upper-case no. -/
theorem bool_coercer_normalization_witness :
    _bool_value (.str "  YES ") = .ok (some true) ∧
    _bool_value (.str " No") = .ok (some false) :=
  ⟨bool_coercer_normalization.2.1 "  YES " (by decide),
   bool_coercer_normalization.2.2.1 " No" (by decide)⟩

/-- C4: on a sequence whose prefix coerces cleanly and whose next value
is non-missing and outside both accepted sets after normalisation, the
coercion aborts at that first offending value — whatever follows it —
with the error message naming the literal offending value (via its
`repr`) and the accepted-token set. -/
theorem bool_coercer_fail_fast (pre post : List PyVal) (v : PyVal)
    (hpre : ∀ u ∈ pre, exceptIsOk (_bool_value u) = true)
    (hv : v ≠ .na) (ht : memBoolTrue (normKey v) = false)
    (hf : memBoolFalse (normKey v) = false) :
    coerce_bool_series (pre ++ v :: post) =
      .error ("Cannot convert " ++ pyRepr v ++ " to bool. " ++
        "Expected one of: 1, 0, 'yes', 'no', 'true', 'false'.") := by
  have hval : _bool_value v = .error (boolErrMsg v) := by
    simp [_bool_value, hv, ht, hf]
  induction pre with
  | nil => simp [coerce_bool_series, hval, boolErrMsg]
  | cons u us ih =>
    have hu := hpre u (by simp)
    obtain ⟨r, hr⟩ : ∃ r, _bool_value u = .ok r := by
      cases h : _bool_value u with
      | ok r => exact ⟨r, rfl⟩
      | error e => rw [h] at hu; simp [exceptIsOk] at hu
    have htail := ih (fun x hx => hpre x (by simp [hx]))
    simp [coerce_bool_series, hr, htail]

/-- Concrete instance of fail-fast coercion: a clean prefix, the
offending string "maybe", and trailing values that are never reached. -/
theorem bool_coercer_fail_fast_witness :
    coerce_bool_series
        ([.int 1, .str " no "] ++ .str "maybe" :: [.na, .int 0]) =
      .error ("Cannot convert " ++ pyRepr (.str "maybe") ++ " to bool. " ++
        "Expected one of: 1, 0, 'yes', 'no', 'true', 'false'.") :=
  bool_coercer_fail_fast [.int 1, .str " no "] [.na, .int 0] (.str "maybe")
    (by decide) (by decide) (by decide) (by decide)

/-- C10: membership in the accepted sets is decided by Python numeric
equality, so the float 1.0 and the bool True coerce to true, and the
float 0.0 and the bool False coerce to false, although none of them is
a literal member of the documented sets. -/
theorem bool_coercer_numeric_equality :
    (∀ q : Rat, q = 1 → _bool_value (.float q) = .ok (some true)) ∧
    (∀ q : Rat, q = 0 → _bool_value (.float q) = .ok (some false)) ∧
    _bool_value (.bool true) = .ok (some true) ∧
    _bool_value (.bool false) = .ok (some false) := by
  refine ⟨?_, ?_, rfl, rfl⟩ <;> · rintro q rfl; rfl

/-- Concrete instances of numeric-equality membership: 1.0 and 0.0. -/
theorem bool_coercer_numeric_equality_witness :
    _bool_value (.float 1) = .ok (some true) ∧
    _bool_value (.float 0) = .ok (some false) :=
  ⟨bool_coercer_numeric_equality.1 1 rfl,
   bool_coercer_numeric_equality.2.1 0 rfl⟩

/-! ## Claim theorems: transformer file dispatch -/

/-- C7: a file-sourced manifest entry with a geospatial extension goes
through the geometry-aware reader; a `.csv` entry goes through the
delimited-text reader with the resolved `in_types` as import-time
column types; any other extension fails with an "unsupported file
type" error naming that extension. -/
theorem transform_file_dispatch (vault f : String)
    (in_types : List (String × String)) :
    (pathSuffix f = ".geojson" ∨ pathSuffix f = ".shp" ∨ pathSuffix f = ".gpkg" →
      dispatchFileRead vault f in_types = .ok (.geoFile (vault ++ "/" ++ f))) ∧
    (pathSuffix f = ".csv" →
      dispatchFileRead vault f in_types =
        .ok (.csvFile (vault ++ "/" ++ f) (_resolve_types in_types))) ∧
    (pathSuffix f ≠ ".geojson" → pathSuffix f ≠ ".shp" →
      pathSuffix f ≠ ".gpkg" → pathSuffix f ≠ ".csv" →
      dispatchFileRead vault f in_types =
        .error ("Unsupported file type: " ++ pathSuffix f)) := by
  refine ⟨?_, ?_, ?_⟩
  · rintro (h | h | h) <;> simp [dispatchFileRead, h]
  · intro h
    simp [dispatchFileRead, h]
  · intro h1 h2 h3 h4
    simp [dispatchFileRead, h1, h2, h3, h4]

/-- Concrete instance of the unsupported-extension failure: an `.xlsx`
source file, with the error message naming `.xlsx`. -/
theorem transform_file_dispatch_witness :
    dispatchFileRead "/vault" "data/file.xlsx" [] =
      .error ("Unsupported file type: " ++ pathSuffix "data/file.xlsx") :=
  (transform_file_dispatch "/vault" "data/file.xlsx" []).2.2
    (by decide) (by decide) (by decide) (by decide)

/-! ## Claim theorems: dataset loader -/

/-- C2: the loader routes each frame by its own shape and the backend's
spatial support, independently of its neighbours: a geometry-bearing
frame on PostgreSQL goes to the spatial append path with the raw
engine handle and the given schema; a geometry-bearing frame on a
backend without spatial support is flattened — its geometry column
becomes WKB hex strings — and written on the plain append path; a
plain frame goes to the plain append path. -/
theorem load_dataset_routing (frames : List Frame) (tn : String)
    (isP : Bool) (schema : String) :
    (load_dataset frames tn isP schema).length = frames.length ∧
    (∀ (i : Nat) (f : Frame) (g : List (Option Geometry)),
      frames[i]? = some f → f.geometry = some g → isP = true →
      (load_dataset frames tn isP schema)[i]? =
        some (.to_postgis tn f.payload g .rawEngine (some schema))) ∧
    (∀ (i : Nat) (f : Frame) (g : List (Option Geometry)),
      frames[i]? = some f → f.geometry = some g → isP = false →
      (load_dataset frames tn isP schema)[i]? =
        some (.to_sql tn f.payload
          (some (g.map (Option.map Geometry.wkb_hex))) .scopedConnection
          none)) ∧
    (∀ (i : Nat) (f : Frame),
      frames[i]? = some f → f.geometry = none →
      (load_dataset frames tn isP schema)[i]? =
        some (.to_sql tn f.payload none .scopedConnection
          (if isP then some schema else none))) := by
  refine ⟨by simp [load_dataset], ?_, ?_, ?_⟩
  · rintro i f g hf hg rfl
    simp [load_dataset, hf, hg]
  · rintro i f g hf hg rfl
    simp [load_dataset, hf, hg]
  · rintro i f hf hg
    simp [load_dataset, hf, hg]

/-- Concrete instance of loader routing: a mixed sequence of one plain
and one geometry-bearing frame on a backend without spatial support;
the plain frame is appended as-is, the spatial one is flattened to WKB
hex with nulls preserved. -/
theorem load_dataset_routing_witness :
    (load_dataset [⟨3, none⟩, ⟨4, some [some ⟨"00AA"⟩, none]⟩]
        "dest" false "public")[0]? =
      some (.to_sql "dest" 3 none .scopedConnection
        (if false then some "public" else none)) ∧
    (load_dataset [⟨3, none⟩, ⟨4, some [some ⟨"00AA"⟩, none]⟩]
        "dest" false "public")[1]? =
      some (.to_sql "dest" 4
        (some ([some ⟨"00AA"⟩, none].map (Option.map Geometry.wkb_hex)))
        .scopedConnection none) :=
  ⟨(load_dataset_routing [⟨3, none⟩, ⟨4, some [some ⟨"00AA"⟩, none]⟩]
      "dest" false "public").2.2.2 0 ⟨3, none⟩ rfl rfl,
   (load_dataset_routing [⟨3, none⟩, ⟨4, some [some ⟨"00AA"⟩, none]⟩]
      "dest" false "public").2.2.1 1 ⟨4, some [some ⟨"00AA"⟩, none]⟩
      [some ⟨"00AA"⟩, none] rfl rfl rfl⟩

/-! ## Claim theorems: numeric out-type coercion -/

/-- After the `to_numeric` pre-coercion, `astype(float)` never raises:
every cell is already numeric or missing. -/
theorem astypeFloat_after_coerce (v : PyVal) :
    astypeFloatCell (to_numeric_coerce v) =
      .ok (floatPost (to_numeric_coerce v)) := by
  cases v
  case str s =>
    cases h : parseNumeric s with
    | none => simp [to_numeric_coerce, h, astypeFloatCell, floatPost]
    | some w =>
      cases w <;> simp [to_numeric_coerce, h, astypeFloatCell, floatPost]
  all_goals simp [to_numeric_coerce, astypeFloatCell, floatPost]

/-- After the `to_numeric` pre-coercion, `astype("Int64")` does not
raise on a cast-safe cell, and yields the cell's integer value (or the
missing marker). -/
theorem astypeInt64_after_coerce (v : PyVal) (h : int64CastSafe v = true) :
    astypeInt64Cell (to_numeric_coerce v) =
      .ok (int64Post (to_numeric_coerce v)) := by
  cases v
  case float q =>
    simp [int64CastSafe] at h
    simp [to_numeric_coerce, astypeInt64Cell, int64Post, h]
  case inf b => simp [int64CastSafe] at h
  case str s =>
    cases hp : parseNumeric s with
    | none => simp [to_numeric_coerce, hp, astypeInt64Cell, int64Post]
    | some w =>
      cases w
      case float q =>
        simp [int64CastSafe, hp] at h
        simp [to_numeric_coerce, hp, astypeInt64Cell, int64Post, h]
      case inf b => simp [int64CastSafe, hp] at h
      all_goals simp [to_numeric_coerce, hp, astypeInt64Cell, int64Post]
  all_goals simp [to_numeric_coerce, astypeInt64Cell, int64Post]

/-- C5: for a numeric target type (`"int"` resolved to nullable
`"Int64"`, or `"float"`), the out-type application never raises because
of an unparseable or blank string cell — such a cell becomes the
missing marker at its row — provided no other cell of the column
genuinely fails the cast (a non-integral or infinite number in an
integer column). -/
theorem numeric_coercion_lenient (t : PdType) (col : List PyVal)
    (i : Nat) (s : String)
    (ht : t = PdType.int64 ∨ t = PdType.float)
    (hsafe : t = PdType.int64 → ∀ v ∈ col, int64CastSafe v = true)
    (hi : col[i]? = some (.str s))
    (hs : parseNumeric s = none) :
    ∃ out, applyOutTypeColumn t col = .ok out ∧ out[i]? = some PyVal.na := by
  have hcell : to_numeric_coerce (.str s) = .na := by
    simp [to_numeric_coerce, hs]
  rcases ht with rfl | rfl
  · refine ⟨(col.map to_numeric_coerce).map int64Post, ?_, ?_⟩
    · show exceptMapM (astypeCell .int64) (col.map to_numeric_coerce) = _
      refine exceptMapM_ok_of_forall _ int64Post _ (fun x hx => ?_)
      obtain ⟨v, hv, rfl⟩ := List.mem_map.mp hx
      exact astypeInt64_after_coerce v (hsafe rfl v hv)
    · rw [List.getElem?_map, List.getElem?_map, hi]
      simp [hcell, int64Post]
  · refine ⟨(col.map to_numeric_coerce).map floatPost, ?_, ?_⟩
    · show exceptMapM (astypeCell .float) (col.map to_numeric_coerce) = _
      refine exceptMapM_ok_of_forall _ floatPost _ (fun x hx => ?_)
      obtain ⟨v, hv, rfl⟩ := List.mem_map.mp hx
      exact astypeFloat_after_coerce v
    · rw [List.getElem?_map, List.getElem?_map, hi]
      simp [hcell, floatPost]

/-- Concrete instance of lenient numeric coercion: an int-typed column
holding "7" and the blank string; the blank cell becomes the missing
marker instead of raising. -/
theorem numeric_coercion_lenient_witness :
    ∃ out, applyOutTypeColumn .int64 [PyVal.str "7", PyVal.str ""] = .ok out ∧
      out[1]? = some PyVal.na :=
  numeric_coercion_lenient .int64 [PyVal.str "7", PyVal.str ""] 1 ""
    (Or.inl rfl) (fun _ => by decide) (by decide) (by decide)

/-! ## Claim theorems: transformer output shape -/

/-- Overwriting an existing column leaves it retrievable with the new
cells. -/
theorem lookupCol_map_overwrite (name : String) (cells : List PyVal)
    (f : TFrame) :
    (lookupCol name f).isSome = true →
      lookupCol name
        (f.map (fun c => if c.1 = name then (name, cells) else c)) =
        some cells := by
  induction f with
  | nil => simp [lookupCol]
  | cons c cs ih =>
    by_cases hc : c.1 = name
    · intro _
      simp [lookupCol, hc]
    · intro h
      simp only [List.map_cons]
      simp [lookupCol, hc] at h ⊢
      exact ih h

/-- Appending a column at the right makes it retrievable when no column
of that name existed. -/
theorem lookupCol_append_self (name : String) (cells : List PyVal)
    (f : TFrame) :
    lookupCol name f = none →
      lookupCol name (f ++ [(name, cells)]) = some cells := by
  induction f with
  | nil => simp [lookupCol]
  | cons c cs ih =>
    by_cases hc : c.1 = name
    · simp [lookupCol, hc]
    · intro h
      simp [lookupCol, hc] at h ⊢
      exact ih h

/-- `setCol` makes the assigned column retrievable with its cells. -/
theorem lookupCol_setCol_self (f : TFrame) (name : String)
    (cells : List PyVal) :
    lookupCol name (setCol f name cells) = some cells := by
  unfold setCol
  by_cases h : (lookupCol name f).isSome
  · rw [if_pos h]
    exact lookupCol_map_overwrite name cells f h
  · rw [if_neg h]
    apply lookupCol_append_self
    cases hx : lookupCol name f with
    | none => rfl
    | some v => rw [hx] at h; simp at h

/-- Overwriting one column does not disturb lookups of other names. -/
theorem lookupCol_map_overwrite_ne (name other : String)
    (cells : List PyVal) (f : TFrame) (hne : other ≠ name) :
    lookupCol other
      (f.map (fun c => if c.1 = name then (name, cells) else c)) =
      lookupCol other f := by
  induction f with
  | nil => rfl
  | cons c cs ih =>
    by_cases hc : c.1 = name
    · simp [lookupCol, hc, Ne.symm hne, ih]
    · by_cases ho : c.1 = other <;> simp [lookupCol, hc, ho, hne, ih]

/-- Appending one column does not disturb lookups of other names. -/
theorem lookupCol_append_ne (name other : String) (cells : List PyVal)
    (f : TFrame) (hne : other ≠ name) :
    lookupCol other (f ++ [(name, cells)]) = lookupCol other f := by
  induction f with
  | nil => simp [lookupCol, Ne.symm hne]
  | cons c cs ih =>
    by_cases ho : c.1 = other <;> simp [lookupCol, ho, ih]

/-- `setCol` does not disturb lookups of other names. -/
theorem lookupCol_setCol_ne (f : TFrame) (name other : String)
    (cells : List PyVal) (hne : other ≠ name) :
    lookupCol other (setCol f name cells) = lookupCol other f := by
  unfold setCol
  by_cases h : (lookupCol name f).isSome
  · rw [if_pos h]
    exact lookupCol_map_overwrite_ne name other cells f hne
  · rw [if_neg h]
    exact lookupCol_append_ne name other cells f hne

/-- A projection over names that all exist succeeds, returns exactly
those names in order, and each projected column looks up to its cells
in the source frame. -/
theorem project_ok (cols : List String) (f : TFrame)
    (h : ∀ c ∈ cols, (lookupCol c f).isSome = true) :
    ∃ g, project cols f = .ok g ∧ g.map Prod.fst = cols ∧
      ∀ c ∈ cols, lookupCol c g = lookupCol c f := by
  induction cols with
  | nil => exact ⟨[], rfl, rfl, by simp⟩
  | cons c cs ih =>
    have hc := h c (by simp)
    obtain ⟨cells, hcells⟩ : ∃ cells, lookupCol c f = some cells := by
      cases hx : lookupCol c f with
      | none => rw [hx] at hc; simp at hc
      | some v => exact ⟨v, rfl⟩
    obtain ⟨g, hg, hnames, hlook⟩ := ih (fun x hx => h x (by simp [hx]))
    refine ⟨(c, cells) :: g, ?_, by simp [hnames], ?_⟩
    · simp [project, hcells, hg]
    · intro x hx
      by_cases hxc : c = x
      · subst hxc
        simp [lookupCol, hcells]
      · have hxcs : x ∈ cs := by
          rcases List.mem_cons.mp hx with rfl | hxs
          · exact absurd rfl hxc
          · exact hxs
        simp [lookupCol, hxc, hlook x hxcs]

/-- Renaming changes column names only, so the row count is kept. -/
theorem nrows_renameCols (renames : List (String × String)) (frame : TFrame) :
    nrows (renameCols renames frame) = nrows frame := by
  cases frame <;> rfl

/-- C8: the shaping step always yields a frame whose column names are
exactly `out_cols` followed by whichever of `start_date` / `end_date`
are absent from `out_cols`, and whose `start_date` and `end_date`
columns hold this entry's dates broadcast to every row — provided every
name in `out_cols` is producible by the rename step or is one of the
two injected date columns (the Field Reference invariant). -/
theorem transform_output_has_dates (renames : List (String × String))
    (out_cols : List String) (sd ed : Date) (frame : TFrame)
    (h : ∀ c ∈ out_cols, c = "start_date" ∨ c = "end_date" ∨
      (lookupCol c (renameCols renames frame)).isSome = true) :
    ∃ g, shapeStep renames out_cols sd ed frame = .ok g ∧
      g.map Prod.fst = out_cols ++ dateColsFor out_cols ∧
      lookupCol "start_date" g =
        some (List.replicate (nrows frame) (.date sd)) ∧
      lookupCol "end_date" g =
        some (List.replicate (nrows frame) (.date ed)) := by
  have hn : nrows (renameCols renames frame) = nrows frame :=
    nrows_renameCols renames frame
  have hsd : lookupCol "start_date"
      (assignDates sd ed (renameCols renames frame)) =
      some (List.replicate (nrows frame) (.date sd)) := by
    unfold assignDates
    rw [lookupCol_setCol_ne _ _ _ _ (by decide),
      lookupCol_setCol_self, hn]
  have hed : lookupCol "end_date"
      (assignDates sd ed (renameCols renames frame)) =
      some (List.replicate (nrows frame) (.date ed)) := by
    unfold assignDates
    rw [lookupCol_setCol_self, hn]
  have hall : ∀ c ∈ out_cols ++ dateColsFor out_cols,
      (lookupCol c (assignDates sd ed (renameCols renames frame))).isSome
        = true := by
    intro c hc
    by_cases h1 : c = "start_date"
    · subst h1; simp [hsd]
    · by_cases h2 : c = "end_date"
      · subst h2; simp [hed]
      · rcases List.mem_append.mp hc with hc | hc
        · rcases h c hc with rfl | rfl | hsome
          · exact absurd rfl h1
          · exact absurd rfl h2
          · unfold assignDates
            rw [lookupCol_setCol_ne _ _ _ _ h2,
              lookupCol_setCol_ne _ _ _ _ h1]
            exact hsome
        · have := (List.mem_filter.mp hc).1
          simp at this
          rcases this with rfl | rfl
          · exact absurd rfl h1
          · exact absurd rfl h2
  obtain ⟨g, hg, hnames, hlook⟩ := project_ok _ _ hall
  have hsmem : "start_date" ∈ out_cols ++ dateColsFor out_cols := by
    by_cases hmem : "start_date" ∈ out_cols
    · exact List.mem_append.mpr (Or.inl hmem)
    · exact List.mem_append.mpr (Or.inr (by simp [dateColsFor, hmem]))
  have hemem : "end_date" ∈ out_cols ++ dateColsFor out_cols := by
    by_cases hmem : "end_date" ∈ out_cols
    · exact List.mem_append.mpr (Or.inl hmem)
    · exact List.mem_append.mpr (Or.inr (by simp [dateColsFor, hmem]))
  exact ⟨g, hg, hnames, (hlook _ hsmem).trans hsd, (hlook _ hemem).trans hed⟩

/-- Concrete instance of the shaping step: a two-row frame, a rename
`DistrictCode → district_code`, and an `out_cols` list omitting both
date columns; the output is `district_code, start_date, end_date` with
both dates stamped on every row. -/
theorem transform_output_has_dates_witness :
    ∃ g, shapeStep [("DistrictCode", "district_code")] ["district_code"]
        ⟨2020, 1, 1⟩ ⟨2020, 12, 31⟩
        [("DistrictCode", [.str "01", .str "02"])] = .ok g ∧
      g.map Prod.fst = ["district_code"] ++ dateColsFor ["district_code"] ∧
      lookupCol "start_date" g =
        some (List.replicate
          (nrows [("DistrictCode", [.str "01", .str "02"])])
          (.date ⟨2020, 1, 1⟩)) ∧
      lookupCol "end_date" g =
        some (List.replicate
          (nrows [("DistrictCode", [.str "01", .str "02"])])
          (.date ⟨2020, 12, 31⟩)) :=
  transform_output_has_dates [("DistrictCode", "district_code")]
    ["district_code"] ⟨2020, 1, 1⟩ ⟨2020, 12, 31⟩
    [("DistrictCode", [.str "01", .str "02"])] (by decide)

end Elote
